import Mathlib

/-!
Verification development for the gitfolio repository: a shallow embedding of
the GitHub data-fetching layer (src/js/github-api.js), the template engine
(src/js/template-engine.js) and the SEO injector, together with theorems
settling the frozen specification claims.

Modelling conventions (documented once here):
- JavaScript strings are modelled as Lean `String` / `List Char`; the inputs of
  interest are BMP text, where one `Char` corresponds to one UTF-16 code unit,
  so JS `length` / `slice` correspond to `List.length` / `List.take` on `.data`.
- JS `Date` values (`updated_at`, `Date.now()`, `lastFetch`) are modelled as
  their epoch-millisecond integers; date-string parsing is left abstract.
- Nullable JS values become `Option`; JS string truthiness (`s || t`) becomes
  `jsOr` below (empty string is falsy).
- Thrown `Error` objects with distinct messages become the constructors of the
  `FetchError` inductive.
- `localStorage` reads are modelled by an explicit `Option UserData` argument:
  `none` covers the absent, corrupted and storage-disabled cases, which the
  source code all maps to a cache miss inside its try/catch.
-/

/-- One repository as delivered by the GitHub API and enriched by the app
(`github-api.js`).  `languageData` and `readmeExcerpt` are the fields written
by the enrichment loop of `fetchUserData`. -/
structure Repo where
  name : String
  description : Option String
  html_url : String
  homepage : Option String
  stargazers_count : Nat
  forks_count : Nat
  fork : Bool
  topics : List String
  updated_at : Int
  languageData : Option (List (String × Nat))
  readmeExcerpt : Option String
  deriving Repr, DecidableEq

/-- The identity record returned by `GET /users/{username}`. -/
structure UserInfo where
  login : String
  name : Option String
  avatar_url : String
  html_url : String
  bio : Option String
  location : Option String
  deriving Repr, DecidableEq

/-- The snapshot assembled by `fetchUserData` and stored in the cache:
`{ username, repos, userInfo, lastFetch }`. -/
structure UserData where
  username : String
  repos : List Repo
  userInfo : UserInfo
  lastFetch : Int
  deriving Repr, DecidableEq

/-- The settings object of `template-engine.js` (defaults at lines 8-19). -/
structure Settings where
  primaryColor : String
  accentColor : String
  bio : String
  linkedin : String
  twitter : String
  email : String
  filterStarred : Bool
  filterNoForks : Bool
  sortBy : String
  featuredRepos : List String
  deriving Repr, DecidableEq

/-- JS `a || b` on strings: the empty string is falsy. -/
def jsOr (a b : String) : String := if a = "" then b else a

/-- Resolve a nullable JS string; `null` and the missing value read as `""`
in string contexts (`o.getD ""`). -/
def orEmpty (o : Option String) : String := o.getD ""

/-- `CACHE_DURATION = 1000 * 60 * 30` (github-api.js line 7). -/
def CACHE_DURATION : Int := 1000 * 60 * 30

/-- `getCachedData` (github-api.js lines 15-35): the stored record is
returned when its username matches the query exactly and its age
`now - lastFetch` does not exceed `CACHE_DURATION`; the absent, corrupted and
storage-failure cases are the `none` argument. -/
def getCachedData (stored : Option UserData) (username : String) (now : Int) :
    Option UserData :=
  match stored with
  | none => none
  | some data =>
    if data.username ≠ username then none
    else if now - data.lastFetch > CACHE_DURATION then none
    else some data

/-- The fixed page size of `fetchRepos` (`perPage = 100`, github-api.js line 100). -/
def perPage : Nat := 100

/-- The page of repositories served by
`GET /users/{u}/repos?per_page=100&page={page}` when the account owns the
list `L` (pages are 1-based slices of the full list, in API order). -/
def pageSlice (L : List Repo) (page : Nat) : List Repo :=
  (L.drop ((page - 1) * perPage)).take perPage

/-- The `while (true)` pagination loop of `fetchRepos`
(github-api.js lines 102-119), with an explicit iteration budget `fuel`
standing for the unbounded loop.  Returns the accumulated repositories and
the number of page requests issued, or `none` when the budget is exhausted
before the loop breaks.  The loop breaks when a page is empty, or after
appending a page shorter than `perPage`. -/
def fetchReposGo (L : List Repo) : Nat → Nat → List Repo → Nat →
    Option (List Repo × Nat)
  | 0, _, _, _ => none
  | fuel + 1, page, acc, count =>
    let pageRepos := pageSlice L page
    if pageRepos.isEmpty then some (acc, count + 1)
    else if pageRepos.length < perPage then some (acc ++ pageRepos, count + 1)
    else fetchReposGo L fuel (page + 1) (acc ++ pageRepos) (count + 1)

/-- `fetchRepos` (github-api.js lines 97-122): start at page 1 with an empty
accumulator.  Page requests are modelled as always-successful slices of the
account repository list; the progress callback and the 100ms courtesy sleep
have no effect on the result and are omitted. -/
def fetchRepos (L : List Repo) (fuel : Nat) : Option (List Repo × Nat) :=
  fetchReposGo L fuel 1 [] 0

/-- The error taxonomy of github-api.js: each constructor corresponds to one
distinct thrown `Error` message (`User not found`, `Rate limit exceeded...`,
`GitHub API error: {status}`, `No public repositories found`). -/
inductive FetchError where
  | notFound
  | rateLimited
  | remoteError (status : Nat)
  | noPublicRepos
  deriving Repr, DecidableEq

/-- The remote GitHub API as an oracle: the outcome of the identity request,
the full repository list served page-wise, and the per-repository language
and readme endpoints (readme content is given already base64-decoded, since
`atob` is applied immediately after the fetch). -/
structure ApiEnv where
  user : Except FetchError UserInfo
  repoList : List Repo
  languages : String → String → Except FetchError (List (String × Nat))
  readme : String → String → Except FetchError String

/-- `fetchLanguages` (github-api.js lines 125-133): any failure of the
underlying request is caught and degraded to the empty mapping. -/
def fetchLanguagesR (env : ApiEnv) (owner repo : String) : List (String × Nat) :=
  match env.languages owner repo with
  | .ok m => m
  | .error _ => []

/-- Line splitter: JS `markdown.split('\n')` on the character list. -/
def splitLinesAux : List Char → List Char → List String
  | [], acc => [String.mk acc.reverse]
  | c :: cs, acc =>
    if c = '\n' then String.mk acc.reverse :: splitLinesAux cs []
    else splitLinesAux cs (c :: acc)

/-- JS `String.prototype.trim` restricted to ASCII whitespace (the inputs of
interest are ASCII; JS additionally trims rarer Unicode spaces). -/
def isWS (c : Char) : Bool := c = ' ' || c = '\t' || c = '\n' || c = '\r'

/-- Trim both ends, as `line.trim()` does. -/
def trimStr (s : String) : String :=
  String.mk (((s.data.dropWhile isWS).reverse.dropWhile isWS).reverse)

/-- Boolean string-prefix test on character lists. -/
def isPrefixL : List Char → List Char → Bool
  | [], _ => true
  | _ :: _, [] => false
  | p :: ps, c :: cs => p = c && isPrefixL ps cs

/-- `s.startsWith(pre)`. -/
def startsWithS (pre s : String) : Bool := isPrefixL pre.data s.data

/-- JS character length of a string (UTF-16 units; BMP assumption above). -/
def lengthN (s : String) : Nat := s.data.length

/-- `s.slice(0, n)`. -/
def sliceN (s : String) (n : Nat) : String := String.mk (s.data.take n)

/-- The line-scanning loop of `extractFirstParagraph`
(github-api.js lines 156-174): skip blank lines, `#` headings and badge
lines until content starts, then accumulate trimmed lines joined by single
spaces, stopping at the first blank line after content or once the
accumulated length exceeds 300. -/
def scanLines : List String → Bool → String → String
  | [], _, paragraph => paragraph
  | line :: rest, foundContent, paragraph =>
    let trimmed := trimStr line
    if trimmed = "" then
      if foundContent = true ∧ paragraph ≠ "" then paragraph
      else scanLines rest foundContent paragraph
    else if startsWithS "#" trimmed then scanLines rest foundContent paragraph
    else if startsWithS "![" trimmed then scanLines rest foundContent paragraph
    else if startsWithS "[!" trimmed then scanLines rest foundContent paragraph
    else if startsWithS "[![" trimmed then scanLines rest foundContent paragraph
    else
      let paragraph2 :=
        if paragraph = "" then trimmed else paragraph ++ " " ++ trimmed
      if 300 < lengthN paragraph2 then paragraph2
      else scanLines rest true paragraph2

/-- Try to match the link pattern of the regex `\[([^\]]+)\]\([^)]+\)` at the
head of the list.  The negated character classes make the greedy match
deterministic, so a match is exactly: `[`, a nonempty run without `]`, `]`,
`(`, a nonempty run without `)`, `)`.  Returns the captured text and the
remainder after the match. -/
def tryLink (cs : List Char) : Option (List Char × List Char) :=
  match cs with
  | '[' :: rest =>
    let txt := rest.takeWhile (fun c => c ≠ ']')
    let rest1 := rest.dropWhile (fun c => c ≠ ']')
    if txt = [] then none
    else
      match rest1 with
      | ']' :: '(' :: rest2 =>
        let url := rest2.takeWhile (fun c => c ≠ ')')
        let rest3 := rest2.dropWhile (fun c => c ≠ ')')
        if url = [] then none
        else
          match rest3 with
          | ')' :: rest4 => some (txt, rest4)
          | _ => none
      | _ => none
  | _ => none

/-- Global replace for the link regex: at each position, emit the captured
text on a match (continuing after it) or the head character otherwise.
`fuel` bounds the scan; every step consumes at least one character, so
`cs.length` is always sufficient. -/
def linkLoop : Nat → List Char → List Char
  | 0, cs => cs
  | _ + 1, [] => []
  | fuel + 1, c :: rest =>
    match tryLink (c :: rest) with
    | some (txt, rest4) => txt ++ linkLoop fuel rest4
    | none => c :: linkLoop fuel rest

/-- Try to match `\*\*([^*]+)\*\*` at the head of the list. -/
def tryBold (cs : List Char) : Option (List Char × List Char) :=
  match cs with
  | '*' :: '*' :: rest =>
    let txt := rest.takeWhile (fun c => c ≠ '*')
    let rest1 := rest.dropWhile (fun c => c ≠ '*')
    if txt = [] then none
    else
      match rest1 with
      | '*' :: '*' :: rest2 => some (txt, rest2)
      | _ => none
  | _ => none

/-- Global replace for the bold regex. -/
def boldLoop : Nat → List Char → List Char
  | 0, cs => cs
  | _ + 1, [] => []
  | fuel + 1, c :: rest =>
    match tryBold (c :: rest) with
    | some (txt, rest2) => txt ++ boldLoop fuel rest2
    | none => c :: boldLoop fuel rest

/-- Try to match `\*([^*]+)\*` at the head of the list. -/
def tryItalic (cs : List Char) : Option (List Char × List Char) :=
  match cs with
  | '*' :: rest =>
    let txt := rest.takeWhile (fun c => c ≠ '*')
    let rest1 := rest.dropWhile (fun c => c ≠ '*')
    if txt = [] then none
    else
      match rest1 with
      | '*' :: rest2 => some (txt, rest2)
      | _ => none
  | _ => none

/-- Global replace for the italic regex. -/
def italicLoop : Nat → List Char → List Char
  | 0, cs => cs
  | _ + 1, [] => []
  | fuel + 1, c :: rest =>
    match tryItalic (c :: rest) with
    | some (txt, rest2) => txt ++ italicLoop fuel rest2
    | none => c :: italicLoop fuel rest

/-- The backtick character, written by code point to keep source text plain. -/
def backquote : Char := Char.ofNat 96

/-- Try to match the inline-code regex (backtick, nonempty run without
backticks, backtick) at the head of the list. -/
def tryCode (cs : List Char) : Option (List Char × List Char) :=
  match cs with
  | b :: rest =>
    if b = backquote then
      let txt := rest.takeWhile (fun c => c ≠ backquote)
      let rest1 := rest.dropWhile (fun c => c ≠ backquote)
      if txt = [] then none
      else
        match rest1 with
        | b2 :: rest2 => if b2 = backquote then some (txt, rest2) else none
        | _ => none
    else none
  | _ => none

/-- Global replace for the inline-code regex. -/
def codeLoop : Nat → List Char → List Char
  | 0, cs => cs
  | _ + 1, [] => []
  | fuel + 1, c :: rest =>
    match tryCode (c :: rest) with
    | some (txt, rest2) => txt ++ codeLoop fuel rest2
    | none => c :: codeLoop fuel rest

/-- The cleanup chain of `extractFirstParagraph` (github-api.js lines
177-181): the four sequential global regex replacements, links first, then
bold, italic and inline code. -/
def stripMarkdown (s : String) : String :=
  let a := linkLoop s.data.length s.data
  let b := boldLoop a.length a
  let c := italicLoop b.length b
  let d := codeLoop c.length c
  String.mk d

/-- `extractFirstParagraph` (github-api.js lines 150-184): scan the lines,
strip markdown syntax from the accumulated paragraph, then truncate to 250
characters with a trailing ellipsis when truncation happened. -/
def extractFirstParagraph (markdown : String) : String :=
  let paragraph := scanLines (splitLinesAux markdown.data []) false ""
  let cleaned := stripMarkdown paragraph
  sliceN cleaned 250 ++ (if 250 < lengthN cleaned then "..." else "")

/-- `fetchReadme` (github-api.js lines 136-147): on success the decoded
content is reduced to its excerpt; any failure is caught and degraded to
`null`. -/
def fetchReadmeR (env : ApiEnv) (owner repo : String) : Option String :=
  match env.readme owner repo with
  | .ok content => some (extractFirstParagraph content)
  | .error _ => none

/-- One step of the enrichment loop of `fetchUserData` (github-api.js lines
216-231): repositories at index `< 20` receive `languageData`, and those at
index `< 6` additionally receive `readmeExcerpt`. -/
def enrichRepo (env : ApiEnv) (username : String) (i : Nat) (r : Repo) : Repo :=
  if i < 20 then
    let r1 := { r with languageData := some (fetchLanguagesR env username r.name) }
    if i < 6 then { r1 with readmeExcerpt := fetchReadmeR env username r1.name }
    else r1
  else r

/-- The enrichment loop over the repository list, carrying the index.  The
source mutates the first 20 elements of `repos` in place through the
`topRepos` alias; this is the same list transformation expressed purely. -/
def enrichFrom (env : ApiEnv) (username : String) : Nat → List Repo → List Repo
  | _, [] => []
  | i, r :: rs => enrichRepo env username i r :: enrichFrom env username (i + 1) rs

/-- `fetchUserData` (github-api.js lines 192-237): serve a fresh-enough cache
entry, otherwise fetch identity, paginate the repository list, fail with
`noPublicRepos` when it is empty, enrich, and return the assembled snapshot.
The outer `Option` is the pagination fuel (`none` = budget exhausted, the
model of nontermination); the cache write `setCachedData` stores the same
snapshot and is a side effect outside the returned value. -/
def fetchUserData (env : ApiEnv) (cache : Option UserData) (username : String)
    (now : Int) (fuel : Nat) : Option (Except FetchError UserData) :=
  match getCachedData cache username now with
  | some cached => some (.ok cached)
  | none =>
    match env.user with
    | .error e => some (.error e)
    | .ok userInfo =>
      match fetchRepos env.repoList fuel with
      | none => none
      | some (repos, _count) =>
        if repos.isEmpty then some (.error .noPublicRepos)
        else
          let enriched := enrichFrom env username 0 repos
          some (.ok { username := username, repos := enriched,
                      userInfo := userInfo, lastFetch := now })

/-- The apostrophe character, written by code point to keep source text plain. -/
def apos : Char := Char.ofNat 39

/-- Per-character escape table of `escapeHtml`. -/
def escChar (c : Char) : String :=
  if c = '&' then "&amp;"
  else if c = '<' then "&lt;"
  else if c = '>' then "&gt;"
  else if c = '"' then "&quot;"
  else if c = apos then "&#039;"
  else String.mk [c]

/-- Character-list form of the escape. -/
def escList : List Char → List Char
  | [] => []
  | c :: cs => (escChar c).data ++ escList cs

/-- `escapeHtml` (template-engine.js lines 149-157).  The source performs
five sequential global replaces (`&`, `<`, `>`, `"`, apostrophe, in that
order); since no replacement string contains a character replaced later in
the chain, the chain equals this single per-character map.  The `!str`
guard returns `""` for `null`/`""`; `null` arguments are passed here via
`orEmpty`. -/
def escapeHtml (s : String) : String := String.mk (escList s.data)

/-- Stable insertion: `x` is placed before the first element it strictly
precedes under `le`, after all elements it ties with. -/
def insertStable (le : α → α → Bool) (x : α) : List α → List α
  | [] => [x]
  | y :: ys =>
    if le x y && !(le y x) then x :: y :: ys
    else y :: insertStable le x ys

/-- Stable sort by repeated insertion in original order.  JS
`Array.prototype.sort` with a consistent numeric comparator is a stable sort
and therefore extensionally equal to this for the total preorders used
below. -/
def sortStable (le : α → α → Bool) (l : List α) : List α :=
  l.foldl (fun acc x => insertStable le x acc) []

/-- Comparator `(a, b) => (b.stargazers_count || 0) - (a.stargazers_count || 0)`:
descending star count. -/
def leStars (a b : Repo) : Bool := decide (b.stargazers_count ≤ a.stargazers_count)

/-- Comparator `(a, b) => new Date(b.updated_at) - new Date(a.updated_at)`:
descending update time. -/
def leUpdated (a b : Repo) : Bool := decide (b.updated_at ≤ a.updated_at)

/-- Comparator `(a, b) => a.name.localeCompare(b.name)`: ascending name
(locale comparison modelled as code-unit order). -/
def leName (a b : Repo) : Bool := decide (a.name ≤ b.name)

/-- `getFilteredRepos` (template-engine.js lines 40-68): copy the snapshot
list (`[...userData.repos]`, so the sorts below act on the copy), drop forks
when `filterNoForks` is set, and sort according to `sortBy`; the
`filterStarred` flag is never read (lines 50-52 are a comment).  Unknown
`sortBy` values fall through the switch unsorted. -/
def getFilteredRepos (userData : Option UserData) (settings : Settings) :
    List Repo :=
  match userData with
  | none => []
  | some ud =>
    let repos := ud.repos
    let repos := if settings.filterNoForks then repos.filter (fun r => !r.fork) else repos
    if settings.sortBy = "stars" then sortStable leStars repos
    else if settings.sortBy = "updated" then sortStable leUpdated repos
    else if settings.sortBy = "name" then sortStable leName repos
    else repos

/-- `getFeaturedRepos` (template-engine.js lines 71-84): when the user chose
featured names, resolve each against the filtered/sorted list in the chosen
order (`.map(find).filter(Boolean)` is `filterMap find?`), capped at 6;
otherwise the first 6 of the filtered/sorted list. -/
def getFeaturedRepos (userData : Option UserData) (settings : Settings) :
    List Repo :=
  let repos := getFilteredRepos userData settings
  if settings.featuredRepos ≠ [] then
    (settings.featuredRepos.filterMap
      (fun name => repos.find? (fun r => r.name == name))).take 6
  else
    repos.take 6

/-- `formatDate` (template-engine.js lines 87-103) on epoch milliseconds;
`Math.floor` on the real quotient is flooring integer division. -/
def formatDate (dateMs now : Int) : String :=
  let diffMs := now - dateMs
  let diffDays := Int.fdiv diffMs (1000 * 60 * 60 * 24)
  if diffDays < 1 then "today"
  else if diffDays = 1 then "yesterday"
  else if diffDays < 30 then toString diffDays ++ " days ago"
  else if diffDays < 365 then
    let months := Int.fdiv diffDays 30
    toString months ++ " month" ++ (if months > 1 then "s" else "") ++ " ago"
  else
    let years := Int.fdiv diffDays 365
    toString years ++ " year" ++ (if years > 1 then "s" else "") ++ " ago"

/-- A `{ name, percent }` entry produced by `getTopLanguages`. -/
structure LangStat where
  name : String
  percent : Nat
  deriving Repr, DecidableEq

/-- `Math.round((bytes / total) * 100)` for nonnegative integers: round half
up.  (For `total = 0` JS yields `NaN`; this total function returns 0 there,
a case no claim touches since percentages are never rendered.) -/
def roundPercent (bytes total : Nat) : Nat := (200 * bytes + total) / (2 * total)

/-- `getTopLanguages` (template-engine.js lines 106-119) with the default
`limit = 3`: entries in insertion order, sorted by byte count descending,
first three, mapped to name and rounded percentage. -/
def getTopLanguages (r : Repo) : List LangStat :=
  match r.languageData with
  | none => []
  | some entries =>
    let total := entries.foldl (fun sum p => sum + p.2) 0
    ((sortStable (fun a b => decide (b.2 ≤ a.2)) entries).take 3).map
      (fun p => { name := p.1, percent := roundPercent p.2 total })

/-- The `langColors` lookup plus its gray fallback
(template-engine.js lines 122-146). -/
def getLangColor (lang : String) : String :=
  if lang = "JavaScript" then "#f1e05a"
  else if lang = "TypeScript" then "#3178c6"
  else if lang = "Python" then "#3572A5"
  else if lang = "Java" then "#b07219"
  else if lang = "C++" then "#f34b7d"
  else if lang = "C" then "#555555"
  else if lang = "C#" then "#178600"
  else if lang = "Go" then "#00ADD8"
  else if lang = "Rust" then "#dea584"
  else if lang = "Ruby" then "#701516"
  else if lang = "PHP" then "#4F5D95"
  else if lang = "Swift" then "#F05138"
  else if lang = "Kotlin" then "#A97BFF"
  else if lang = "HTML" then "#e34c26"
  else if lang = "CSS" then "#563d7c"
  else if lang = "SCSS" then "#c6538c"
  else if lang = "Vue" then "#41b883"
  else if lang = "Shell" then "#89e051"
  else if lang = "Dart" then "#00B4AB"
  else "#8b8b8b"

/-- Wrap to a 32-bit signed integer, as `|= 0` does. -/
def toInt32 (x : Int) : Int := (x + 2147483648) % 4294967296 - 2147483648

/-- `hashCode` (template-engine.js lines 256-263): `hash << 5` operates on
32-bit values (hence the inner wrap) and `hash |= 0` wraps the sum;
`charCodeAt` is the code point for BMP text. -/
def hashCodeAux : List Char → Int → Int
  | [], h => h
  | c :: cs, h => hashCodeAux cs (toInt32 (toInt32 (h * 32) - h + c.toNat))

/-- `hashCode(str)` with initial hash 0. -/
def hashCode (s : String) : Int := hashCodeAux s.data 0

/-- The GitHub icon path data, the identical literal used in the dark card
(template-engine.js line 196) and the social links (line 290). -/
def ghIconPath : String := "M12 0C5.37 0 0 5.37 0 12c0 5.31 3.435 9.795 8.205 11.385.6.105.825-.255.825-.57 0-.285-.015-1.23-.015-2.235-3.015.555-3.795-.735-4.035-1.41-.135-.345-.72-1.41-1.23-1.695-.42-.225-1.02-.78-.015-.795.945-.015 1.62.87 1.845 1.23 1.08 1.815 2.805 1.305 3.495.99.105-.78.42-1.305.765-1.605-2.67-.3-5.46-1.335-5.46-5.925 0-1.305.465-2.385 1.23-3.225-.12-.3-.54-1.53.12-3.18 0 0 1.005-.315 3.3 1.23.96-.27 1.98-.405 3-.405s2.04.135 3 .405c2.295-1.56 3.3-1.23 3.3-1.23.66 1.65.24 2.88.12 3.18.765.84 1.23 1.905 1.23 3.225 0 4.605-2.805 5.625-5.475 5.925.435.375.81 1.095.81 2.22 0 1.605-.015 2.895-.015 3.3 0 .315.225.69.825.57A12.02 12.02 0 0024 12c0-6.63-5.37-12-12-12z"

/-- The six gradient strings of the creative template
(template-engine.js lines 219-226). -/
def gradients : List String :=
  [ "linear-gradient(135deg, #667eea 0%, #764ba2 100%)"
  , "linear-gradient(135deg, #f093fb 0%, #f5576c 100%)"
  , "linear-gradient(135deg, #4facfe 0%, #00f2fe 100%)"
  , "linear-gradient(135deg, #43e97b 0%, #38f9d7 100%)"
  , "linear-gradient(135deg, #fa709a 0%, #fee140 100%)"
  , "linear-gradient(135deg, #a18cd1 0%, #fbc2eb 100%)" ]

/-- `generateProjectCard` (template-engine.js lines 160-253).  All
interpolated expressions, their escaping and their order are verbatim from
the source; the inert indentation whitespace of the template literals is
condensed and does not carry meaning for any claim.  Unknown template ids
return the empty string. -/
def generateProjectCard (repo : Repo) (template : String) (now : Int) : String :=
  let langs := getTopLanguages repo
  let _updated := formatDate repo.updated_at now
  let description := jsOr (escapeHtml (orEmpty repo.description)) "No description"
  let homepage := orEmpty repo.homepage
  let topics := repo.topics
  if template = "minimal" then
    "<article class=\"project-card\"><h3 class=\"project-title\"><a href=\""
      ++ repo.html_url ++ "\" target=\"_blank\" rel=\"noopener\">"
      ++ escapeHtml repo.name ++ "</a></h3><p class=\"project-desc\">"
      ++ description ++ "</p><div class=\"project-meta\"><div class=\"project-langs\">"
      ++ String.join (langs.map (fun l =>
            "<span class=\"lang-tag\" style=\"--lang-color: " ++ getLangColor l.name
              ++ "\">" ++ l.name ++ "</span>"))
      ++ "</div><div class=\"project-stats\">"
      ++ (if repo.stargazers_count > 0 then
            "<span class=\"stat\">★ " ++ toString repo.stargazers_count ++ "</span>"
          else "")
      ++ (if repo.forks_count > 0 then
            "<span class=\"stat\">⑂ " ++ toString repo.forks_count ++ "</span>"
          else "")
      ++ "</div></div>"
      ++ (if homepage ≠ "" then
            "<a href=\"" ++ homepage
              ++ "\" class=\"demo-link\" target=\"_blank\" rel=\"noopener\">Live Demo →</a>"
          else "")
      ++ "</article>"
  else if template = "dark" then
    "<article class=\"project-card\"><div class=\"card-header\"><span class=\"folder-icon\">📁</span><div class=\"card-links\"><a href=\""
      ++ repo.html_url ++ "\" target=\"_blank\" rel=\"noopener\" title=\"GitHub\"><svg viewBox=\"0 0 24 24\" width=\"20\" height=\"20\" fill=\"currentColor\"><path d=\""
      ++ ghIconPath ++ "\"/></svg></a>"
      ++ (if homepage ≠ "" then
            "<a href=\"" ++ homepage
              ++ "\" target=\"_blank\" rel=\"noopener\" title=\"Live Demo\">↗</a>"
          else "")
      ++ "</div></div><h3 class=\"project-title\">" ++ escapeHtml repo.name
      ++ "</h3><p class=\"project-desc\">" ++ description
      ++ "</p><div class=\"project-footer\"><div class=\"project-langs\">"
      ++ String.join (langs.map (fun l =>
            "<span class=\"lang-dot\" style=\"background: " ++ getLangColor l.name
              ++ "\" title=\"" ++ l.name ++ "\"></span>"))
      ++ "<span class=\"lang-name\">" ++ orEmpty ((langs.head?).map LangStat.name)
      ++ "</span></div><div class=\"project-stats\"><span>★ "
      ++ toString repo.stargazers_count ++ "</span><span>⑂ "
      ++ toString repo.forks_count ++ "</span></div></div></article>"
  else if template = "creative" then
    let gradient := gradients.getD ((hashCode repo.name).natAbs % gradients.length) ""
    "<article class=\"project-card\" style=\"--card-gradient: " ++ gradient
      ++ "\"><div class=\"card-accent\"></div><div class=\"card-content\"><div class=\"card-top\">"
      ++ String.join ((topics.take 2).map (fun t =>
            "<span class=\"topic-tag\">" ++ t ++ "</span>"))
      ++ "</div><h3 class=\"project-title\">" ++ escapeHtml repo.name
      ++ "</h3><p class=\"project-desc\">" ++ description
      ++ "</p><div class=\"card-bottom\"><div class=\"lang-pills\">"
      ++ String.join (langs.map (fun l =>
            "<span class=\"lang-pill\">" ++ l.name ++ "</span>"))
      ++ "</div><div class=\"card-actions\"><a href=\"" ++ repo.html_url
      ++ "\" class=\"card-btn\" target=\"_blank\" rel=\"noopener\">View Code</a>"
      ++ (if homepage ≠ "" then
            "<a href=\"" ++ homepage
              ++ "\" class=\"card-btn primary\" target=\"_blank\" rel=\"noopener\">Demo</a>"
          else "")
      ++ "</div></div></div></article>"
  else ""

/-- Remove the first occurrence of `@`, as the single-character (non-regex)
`settings.twitter.replace('@', '')` does. -/
def removeFirstAt : List Char → List Char
  | [] => []
  | c :: cs => if c = '@' then cs else c :: removeFirstAt cs

/-- `generateSocialLinks` (template-engine.js lines 266-295); the inline SVG
path data of the LinkedIn/Twitter/Email icons is fixed markup elided as
`...`, which no claim inspects. -/
def generateSocialLinks (settings : Settings) (userData : Option UserData) : String :=
  let links :=
    (if settings.linkedin ≠ "" then
      ["<a href=\"" ++ settings.linkedin
        ++ "\" target=\"_blank\" rel=\"noopener\" class=\"social-link\" aria-label=\"LinkedIn\"><svg>...</svg></a>"]
     else [])
    ++ (if settings.twitter ≠ "" then
      ["<a href=\"https://twitter.com/" ++ String.mk (removeFirstAt settings.twitter.data)
        ++ "\" target=\"_blank\" rel=\"noopener\" class=\"social-link\" aria-label=\"Twitter\"><svg>...</svg></a>"]
     else [])
    ++ (if settings.email ≠ "" then
      ["<a href=\"mailto:" ++ settings.email
        ++ "\" class=\"social-link\" aria-label=\"Email\"><svg>...</svg></a>"]
     else [])
    ++ (match userData with
        | some ud =>
          ["<a href=\"" ++ ud.userInfo.html_url
            ++ "\" target=\"_blank\" rel=\"noopener\" class=\"social-link\" aria-label=\"GitHub\"><svg><path d=\""
            ++ ghIconPath ++ "\"/></svg></a>"]
        | none => [])
  String.intercalate "\n" links

/-- The shared base CSS of `getTemplateStyles` (template-engine.js lines
383-513).  The stylesheet text is an inert literal with no interpolation;
it is elided to a marker here since no claim depends on its characters. -/
def baseStyles : String := "/* base styles shared by all templates */"

/-- The minimal-template CSS (lines 518-660), elided like `baseStyles`. -/
def minimalStyles : String := "/* minimal template styles */"

/-- The dark-template CSS (lines 662-819), elided like `baseStyles`. -/
def darkStyles : String := "/* dark template styles */"

/-- The creative-template CSS (lines 821-1026), elided like `baseStyles`. -/
def creativeStyles : String := "/* creative template styles */"

/-- `templateSpecific[template]` object lookup. -/
def templateSpecific (template : String) : Option String :=
  if template = "minimal" then some minimalStyles
  else if template = "dark" then some darkStyles
  else if template = "creative" then some creativeStyles
  else none

/-- `getTemplateStyles` (template-engine.js lines 381-1030):
`baseStyles + (templateSpecific[template] || templateSpecific.minimal)`. -/
def getTemplateStyles (template : String) : String :=
  baseStyles ++ (templateSpecific template).getD minimalStyles

/-- One row of the All Projects list (template-engine.js lines 356-362). -/
def projectRow (repo : Repo) : String :=
  "<a href=\"" ++ repo.html_url
    ++ "\" class=\"project-row\" target=\"_blank\" rel=\"noopener\"><span class=\"row-name\">"
    ++ escapeHtml repo.name ++ "</span><span class=\"row-desc\">"
    ++ escapeHtml (orEmpty repo.description) ++ "</span><span class=\"row-stats\">★ "
    ++ toString repo.stargazers_count ++ "</span></a>"

/-- `render` (template-engine.js lines 298-377): the full document as a pure
function of the snapshot, settings, current template and clock.  All
interpolated expressions and their order are verbatim; fixed markup
whitespace is condensed as in `generateProjectCard`. -/
def render (userData : Option UserData) (settings : Settings)
    (currentTemplate : String) (now : Int) : String :=
  match userData with
  | none => "<p>No data available</p>"
  | some ud =>
    let user := ud.userInfo
    let featuredRepos := getFeaturedRepos (some ud) settings
    let allRepos := getFilteredRepos (some ud) settings
    let name := jsOr (orEmpty user.name) user.login
    let bio := jsOr settings.bio (orEmpty user.bio)
    let avatar := user.avatar_url
    let location := orEmpty user.location
    let templateStyles := getTemplateStyles currentTemplate
    "<!DOCTYPE html><html lang=\"en\"><head><meta charset=\"UTF-8\"><meta name=\"viewport\" content=\"width=device-width, initial-scale=1.0\"><title>"
      ++ escapeHtml name
      ++ " - Portfolio</title><link rel=\"preconnect\" href=\"https://fonts.googleapis.com\"><link rel=\"preconnect\" href=\"https://fonts.gstatic.com\" crossorigin><link href=\"https://fonts.googleapis.com/css2?family=Inter:wght@400;500;600;700&family=JetBrains+Mono:wght@400;500&display=swap\" rel=\"stylesheet\"><style>"
      ++ templateStyles
      ++ "</style><!-- SEO meta tags will be injected by seo-generator --></head><body><div class=\"portfolio-container\"><header class=\"hero\"><img src=\""
      ++ avatar ++ "\" alt=\"" ++ escapeHtml name
      ++ "\" class=\"avatar\" loading=\"lazy\"><h1 class=\"name\">" ++ escapeHtml name
      ++ "</h1>"
      ++ (if bio ≠ "" then "<p class=\"bio\">" ++ escapeHtml bio ++ "</p>" else "")
      ++ (if location ≠ "" then
            "<p class=\"location\">📍 " ++ escapeHtml location ++ "</p>"
          else "")
      ++ "<div class=\"social-links\">" ++ generateSocialLinks settings userData
      ++ "</div></header><main><section class=\"projects-section\"><h2 class=\"section-title\">Featured Projects</h2><div class=\"projects-grid\">"
      ++ String.intercalate "\n"
           (featuredRepos.map (fun r => generateProjectCard r currentTemplate now))
      ++ "</div></section>"
      ++ (if allRepos.length > 6 then
            "<section class=\"all-projects\"><h2 class=\"section-title\">All Projects</h2><div class=\"projects-list\">"
              ++ String.intercalate "\n" ((allRepos.drop 6).map projectRow)
              ++ "</div></section>"
          else "")
      ++ "</main><footer class=\"footer\"><p>Built with <a href=\"https://github.com\" target=\"_blank\" rel=\"noopener\">GitHub</a></p></footer></div></body></html>"

/-- The module-level mutable state of `TemplateEngine`
(template-engine.js lines 6-19). -/
structure EngineState where
  currentTemplate : String
  userData : Option UserData
  settings : Settings
  deriving Repr, DecidableEq

/-- `getFilteredRepos` as the state transformer the module actually exposes.
The source copies the snapshot list (`let repos = [...userData.repos]`,
line 43) before the in-place `Array.prototype.sort`, so the mutation acts on
the copy and the module state is returned unchanged; that unchanged state is
exactly what this pure translation exhibits. -/
def getFilteredReposS (st : EngineState) : List Repo × EngineState :=
  (getFilteredRepos st.userData st.settings, st)

/-- `getFeaturedRepos` as a state transformer; it only calls
`getFilteredRepos` and reads `settings.featuredRepos`. -/
def getFeaturedReposS (st : EngineState) : List Repo × EngineState :=
  (getFeaturedRepos st.userData st.settings, st)

/-- `render` as a state transformer: it reads `userData`, `settings` and
`currentTemplate` and writes nothing. -/
def renderS (st : EngineState) (now : Int) : String × EngineState :=
  (render st.userData st.settings st.currentTemplate now, st)

/-- `html.indexOf(needle)` on character lists, carrying the index reached. -/
def idxOfSubAux (needle : List Char) : List Char → Nat → Option Nat
  | [], i => if needle = [] then some i else none
  | c :: cs, i =>
    if isPrefixL needle (c :: cs) then some i
    else idxOfSubAux needle cs (i + 1)

/-- `hay.indexOf(needle)`: index of the first occurrence, `none` for -1. -/
def idxOfSub (hay needle : String) : Option Nat := idxOfSubAux needle.data hay.data 0

/-- `injectIntoHtml` (seo-generator, lines 147-168 of the unnamed source
file): find the first `</head>` and splice the metadata before it — when it
is missing, warn and return the document as is — then find the first
`</body>` of the updated document and splice the structured data before it
when present.  The generated metadata and structured-data strings are
passed as parameters here: the claim under verification concerns only the
splicing, and their generators (`generateMetaTags`,
`generateStructuredData`) do not read the document. -/
def injectIntoHtml (html metaTags structuredData : String) : String :=
  match idxOfSub html "</head>" with
  | none => html
  | some headCloseIndex =>
    let result := String.mk (html.data.take headCloseIndex) ++ metaTags ++ "\n"
      ++ String.mk (html.data.drop headCloseIndex)
    match idxOfSub result "</body>" with
    | none => result
    | some bodyCloseIndex =>
      String.mk (result.data.take bodyCloseIndex) ++ structuredData ++ "\n"
        ++ String.mk (result.data.drop bodyCloseIndex)

/-- A concrete identity record used by concrete-input theorems. -/
def sampleUser : UserInfo :=
  { login := "alice", name := none, avatar_url := "https://e/a.png",
    html_url := "https://g/alice", bio := none, location := none }

/-- A concrete repository with a given name and star count. -/
def sampleRepo (nm : String) (stars : Nat) : Repo :=
  { name := nm, description := none, html_url := "https://g/r", homepage := none,
    stargazers_count := stars, forks_count := 0, fork := false, topics := [],
    updated_at := 0, languageData := none, readmeExcerpt := none }

/-- A concrete snapshot with `lastFetch = 0`. -/
def sampleData : UserData :=
  { username := "alice", repos := [sampleRepo "a" 5], userInfo := sampleUser,
    lastFetch := 0 }

/-- C2 counterexample: with the stored snapshot fetched at time 0 and the
query issued at time `CACHE_DURATION`, the elapsed time equals the TTL
exactly, which the claim says must yield absent; the code returns the
stored entry (`age > CACHE_DURATION` is false at equality). -/
theorem C2_counterexample :
    getCachedData (some sampleData) "alice" CACHE_DURATION = some sampleData ∧
      ¬ (CACHE_DURATION - sampleData.lastFetch < CACHE_DURATION) := by
  constructor
  · decide
  · decide

/-- C2 (amended): the cache get returns the stored entry if and only if the
stored username equals the queried username exactly and the elapsed time
`now - lastFetch` is at most (not strictly less than) the TTL of 30
minutes; in every other case it returns absent. -/
theorem getCachedData_iff (stored : Option UserData) (u : String) (now : Int)
    (d : UserData) :
    getCachedData stored u now = some d ↔
      stored = some d ∧ d.username = u ∧ now - d.lastFetch ≤ CACHE_DURATION := by
  cases stored with
  | none =>
    simp [getCachedData]
  | some e =>
    show (if e.username ≠ u then none
          else if now - e.lastFetch > CACHE_DURATION then none else some e) = some d ↔ _
    split_ifs with h1 h2
    · constructor
      · intro h
        exact h.elim
      · rintro ⟨he, hu, _⟩
        obtain rfl := Option.some.inj he
        exact absurd hu h1
    · constructor
      · intro h
        exact h.elim
      · rintro ⟨he, _, hage⟩
        obtain rfl := Option.some.inj he
        exact absurd h2 (not_lt.mpr hage)
    · constructor
      · intro h
        obtain rfl := Option.some.inj h
        exact ⟨rfl, not_not.mp h1, not_lt.mp h2⟩
      · rintro ⟨he, _, _⟩
        obtain rfl := Option.some.inj he
        rfl

lemma fetchReposGo_spec (L : List Repo) :
    ∀ (fuel : Nat) (rem : List Repo) (page : Nat) (acc : List Repo) (count : Nat),
      1 ≤ page →
      rem = L.drop ((page - 1) * perPage) →
      rem.length / perPage + 1 ≤ fuel →
      fetchReposGo L fuel page acc count =
        some (acc ++ rem, count + (rem.length / perPage + 1)) := by
  intro fuel
  induction fuel with
  | zero =>
    intro rem page acc count _ _ hfuel
    exact absurd hfuel (Nat.not_succ_le_zero _)
  | succ fuel ih =>
    intro rem page acc count hpage hrem hfuel
    have hslice : pageSlice L page = rem.take perPage := by
      rw [pageSlice, hrem]
    simp only [fetchReposGo, hslice]
    by_cases hnil : rem = []
    · subst hnil
      simp
    · have hlen0 : 0 < rem.length := List.length_pos.mpr hnil
      by_cases hshort : rem.length < perPage
      · have htake : rem.take perPage = rem := List.take_of_length_le (le_of_lt hshort)
        rw [htake]
        have hne : ¬ rem.isEmpty = true := by
          simp [List.isEmpty_iff, hnil]
        rw [if_neg hne, if_pos hshort]
        have hdiv : rem.length / perPage = 0 := Nat.div_eq_of_lt hshort
        rw [hdiv]
      · have hge : perPage ≤ rem.length := le_of_not_lt hshort
        have htlen : (rem.take perPage).length = perPage := by
          rw [List.length_take]
          omega
        have hne : ¬ (rem.take perPage).isEmpty = true := by
          rw [List.isEmpty_iff, ← List.length_eq_zero, htlen]
          simp [perPage]
        rw [if_neg hne, htlen, if_neg (lt_irrefl perPage)]
        have hdropped : rem.drop perPage = L.drop ((page + 1 - 1) * perPage) := by
          rw [hrem, List.drop_drop]
          congr 1
          have h1 : page + 1 - 1 = page := by omega
          have h2 : page = (page - 1) + 1 := by omega
          rw [h1]
          obtain ⟨q, rfl⟩ : ∃ q, page = q + 1 := ⟨page - 1, by omega⟩
          simp [Nat.add_sub_cancel, Nat.succ_mul, Nat.add_comm]
        have hdlen : (rem.drop perPage).length = rem.length - perPage :=
          List.length_drop perPage rem
        have hdivstep : (rem.length - perPage) / perPage + 1 = rem.length / perPage := by
          have h100 : perPage = 100 := rfl
          rw [h100] at hge ⊢
          omega
        have hfuel2 : (rem.drop perPage).length / perPage + 1 ≤ fuel := by
          rw [hdlen, hdivstep]
          omega
        rw [ih (rem.drop perPage) (page + 1) (acc ++ rem.take perPage) (count + 1)
              (by omega) hdropped hfuel2]
        rw [List.append_assoc, List.take_append_drop, hdlen, hdivstep]
        have harith : count + 1 + rem.length / perPage
            = count + (rem.length / perPage + 1) := by omega
        rw [harith]

lemma fetchRepos_eq (L : List Repo) (fuel : Nat)
    (hfuel : L.length / perPage + 1 ≤ fuel) :
    fetchRepos L fuel = some (L, L.length / perPage + 1) := by
  have h := fetchReposGo_spec L fuel L 1 [] 0 (le_refl 1) (by simp) hfuel
  simpa using h

/-- C4: for every account repository list, the pagination loop terminates as
soon as the fuel covers `length / 100 + 1` iterations, issuing exactly
`length / 100 + 1` page requests and accumulating the whole list (so it
stops at the first short or empty page); when the length is an exact
multiple of the page size, the last of those requests returns the empty
page. -/
theorem fetchRepos_pagination (L : List Repo) (fuel : Nat)
    (hfuel : L.length / 100 + 1 ≤ fuel) :
    fetchRepos L fuel = some (L, L.length / 100 + 1) ∧
      (∀ k, L.length = k * 100 → pageSlice L (L.length / 100 + 1) = []) := by
  constructor
  · exact fetchRepos_eq L fuel hfuel
  · intro k hk
    rw [pageSlice]
    have hq : L.length / 100 = k := by
      rw [hk]
      exact Nat.mul_div_cancel k (by norm_num)
    have hdrop : L.drop ((L.length / 100 + 1 - 1) * perPage) = [] := by
      apply List.drop_eq_nil_of_le
      rw [hq]
      show L.length ≤ k * perPage
      rw [hk]
      rfl
    rw [hdrop]
    rfl

/-- C4 witness: a 200-repository account is paginated in exactly three
requests (two full pages and the final empty page), returning the whole
list. -/
theorem fetchRepos_pagination_witness :
    fetchRepos (List.replicate 200 (sampleRepo "a" 0)) 3 =
        some (List.replicate 200 (sampleRepo "a" 0), 3) ∧
      pageSlice (List.replicate 200 (sampleRepo "a" 0)) 3 = [] := by
  have h := fetchRepos_pagination (List.replicate 200 (sampleRepo "a" 0)) 3
    (by rw [List.length_replicate])
  constructor
  · have h1 := h.1
    rw [List.length_replicate] at h1
    norm_num at h1
    exact h1
  · have h2 := h.2 2 (by rw [List.length_replicate])
    rw [List.length_replicate] at h2
    norm_num at h2
    exact h2

lemma getCachedData_some (stored : Option UserData) (u : String) (now : Int)
    (d : UserData) (h : getCachedData stored u now = some d) : stored = some d := by
  cases stored with
  | none => exact Option.noConfusion h
  | some e =>
    have h2 : (if e.username ≠ u then (none : Option UserData)
        else if now - e.lastFetch > CACHE_DURATION then none else some e)
        = some d := h
    split_ifs at h2
    obtain rfl := Option.some.inj h2
    rfl

lemma enrichFrom_eq_nil (env : ApiEnv) (u : String) (i : Nat) (l : List Repo) :
    enrichFrom env u i l = [] ↔ l = [] := by
  cases l <;> simp [enrichFrom]

/-- C8: when the language request fails for any reason, `fetchLanguages`
returns the empty mapping; when the readme request fails, `fetchReadme`
returns absent (never the empty string); and an aggregation whose language
and readme requests all fail still completes successfully (given identity,
a non-empty repository list and enough pagination fuel), so neither failure
aborts the overall fetch. -/
theorem enrichment_failures_degrade (env : ApiEnv) (owner repo : String)
    (e1 e2 : FetchError)
    (hL : env.languages owner repo = .error e1)
    (hR : env.readme owner repo = .error e2) :
    fetchLanguagesR env owner repo = [] ∧
      fetchReadmeR env owner repo = none ∧
      fetchReadmeR env owner repo ≠ some "" ∧
      (∀ ui, env.user = .ok ui → env.repoList ≠ [] →
        ∀ (cache : Option UserData) (u : String) (now : Int) (fuel : Nat),
          env.repoList.length / perPage + 1 ≤ fuel →
          ∃ d, fetchUserData env cache u now fuel = some (.ok d)) := by
  have hlang : fetchLanguagesR env owner repo = [] := by
    rw [fetchLanguagesR, hL]
  have hread : fetchReadmeR env owner repo = none := by
    rw [fetchReadmeR, hR]
  refine ⟨hlang, hread, by rw [hread]; simp, ?_⟩
  intro ui hui hne cache u now fuel hfuel
  rw [fetchUserData]
  cases hc : getCachedData cache u now with
  | some cached => exact ⟨cached, rfl⟩
  | none =>
    rw [hui, fetchRepos_eq env.repoList fuel hfuel]
    have : env.repoList.isEmpty = false := by
      simp [List.isEmpty_iff, hne]
    simp only [this, Bool.false_eq_true, if_false]
    exact ⟨_, rfl⟩

/-- C8 witness: a concrete environment whose language and readme endpoints
always fail still yields languages `{}`, readme `null`, and a successful
overall fetch on a one-repository account. -/
theorem enrichment_failures_degrade_witness :
    fetchLanguagesR
        { user := .ok sampleUser, repoList := [sampleRepo "a" 5],
          languages := fun _ _ => .error .rateLimited,
          readme := fun _ _ => .error .notFound } "alice" "a" = [] ∧
      fetchReadmeR
        { user := .ok sampleUser, repoList := [sampleRepo "a" 5],
          languages := fun _ _ => .error .rateLimited,
          readme := fun _ _ => .error .notFound } "alice" "a" = none ∧
      fetchReadmeR
        { user := .ok sampleUser, repoList := [sampleRepo "a" 5],
          languages := fun _ _ => .error .rateLimited,
          readme := fun _ _ => .error .notFound } "alice" "a" ≠ some "" ∧
      (∀ ui, (Except.ok sampleUser : Except FetchError UserInfo) = .ok ui →
        [sampleRepo "a" 5] ≠ [] →
        ∀ (cache : Option UserData) (u : String) (now : Int) (fuel : Nat),
          [sampleRepo "a" 5].length / perPage + 1 ≤ fuel →
          ∃ d, fetchUserData
            { user := .ok sampleUser, repoList := [sampleRepo "a" 5],
              languages := fun _ _ => .error .rateLimited,
              readme := fun _ _ => .error .notFound } cache u now fuel
              = some (.ok d)) :=
  enrichment_failures_degrade _ "alice" "a" .rateLimited .notFound rfl rfl

lemma fetchRepos_nil_list (fuel : Nat) (l : List Repo) (c : Nat)
    (h : fetchRepos [] fuel = some (l, c)) : l = [] := by
  cases fuel with
  | zero => exact Option.noConfusion h
  | succ n =>
    have he : fetchRepos [] (n + 1) = some ([], 1) := rfl
    rw [he] at h
    obtain ⟨h1, _⟩ := Prod.mk.injEq .. ▸ Option.some.inj h
    exact h1.symm

/-- C3: assuming every cache entry records a non-empty repository list (the
invariant maintained by the only cache writer, which stores snapshots after
the emptiness check), every snapshot returned successfully by
`fetchUserData` — cached or freshly aggregated — has a non-empty `repos`
list; on a cache miss with a successful identity fetch and an empty
repository list the result is the `noPublicRepos` error, which is a
constructor distinct from `notFound`. -/
theorem fetchUserData_repos_nonempty (env : ApiEnv) (cache : Option UserData)
    (u : String) (now : Int) (fuel : Nat) (res : Except FetchError UserData)
    (hcache : ∀ c, cache = some c → c.repos ≠ [])
    (hres : fetchUserData env cache u now fuel = some res) :
    (∀ d, res = .ok d → d.repos ≠ []) ∧
      (getCachedData cache u now = none → ∀ ui, env.user = .ok ui →
        env.repoList = [] → res = .error .noPublicRepos) ∧
      (FetchError.noPublicRepos ≠ FetchError.notFound) := by
  unfold fetchUserData at hres
  cases hc : getCachedData cache u now with
  | some c =>
    rw [hc] at hres
    have hres2 : some (Except.ok c : Except FetchError UserData) = some res := hres
    obtain rfl := Option.some.inj hres2
    refine ⟨?_, ?_, by decide⟩
    · intro d hd
      have hcd : c = d := Except.ok.inj hd
      rw [← hcd]
      exact hcache c (getCachedData_some cache u now c hc)
    · intro hnone
      exact absurd hnone (by simp)
  | none =>
    rw [hc] at hres
    cases hu : env.user with
    | error e =>
      rw [hu] at hres
      have hres2 : some (Except.error e : Except FetchError UserData) = some res := hres
      obtain rfl := Option.some.inj hres2
      refine ⟨?_, ?_, by decide⟩
      · intro d hd
        exact absurd hd (by simp)
      · intro _ ui hui
        exact absurd hui (by simp)
    | ok ui =>
      rw [hu] at hres
      cases hr : fetchRepos env.repoList fuel with
      | none =>
        rw [hr] at hres
        exact absurd hres (by simp)
      | some pr =>
        obtain ⟨repos, cnt⟩ := pr
        rw [hr] at hres
        by_cases hemp : repos.isEmpty = true
        · have hres2 : some (Except.error FetchError.noPublicRepos
              : Except FetchError UserData) = some res := by
            rw [← hres]
            simp [hemp]
          obtain rfl := Option.some.inj hres2
          refine ⟨?_, ?_, by decide⟩
          · intro d hd
            exact absurd hd (by simp)
          · intro _ _ _ _
            rfl
        · have hres2 : some (Except.ok
              ({ username := u, repos := enrichFrom env u 0 repos,
                 userInfo := ui, lastFetch := now } : UserData)
              : Except FetchError UserData) = some res := by
            rw [← hres]
            simp [hemp]
          obtain rfl := Option.some.inj hres2
          refine ⟨?_, ?_, by decide⟩
          · intro d hd
            cases hd
            show enrichFrom env u 0 repos ≠ []
            rw [Ne, enrichFrom_eq_nil]
            simpa [List.isEmpty_iff] using hemp
          · intro _ ui2 _ hLnil
            rw [hLnil] at hr
            have : repos = [] := fetchRepos_nil_list fuel repos cnt hr
            rw [this] at hemp
            exact absurd rfl hemp

/-- C3 witness: on an account with a successful identity fetch and zero
public repositories (empty cache), the aggregation fails with
`noPublicRepos`. -/
theorem fetchUserData_repos_nonempty_witness :
    (∀ d, (Except.error FetchError.noPublicRepos : Except FetchError UserData)
        = .ok d → d.repos ≠ []) ∧
      (getCachedData none "alice" 0 = none → ∀ ui,
        (Except.ok sampleUser : Except FetchError UserInfo) = .ok ui →
        ([] : List Repo) = [] →
        (Except.error FetchError.noPublicRepos : Except FetchError UserData)
          = .error .noPublicRepos) ∧
      (FetchError.noPublicRepos ≠ FetchError.notFound) :=
  fetchUserData_repos_nonempty
    { user := .ok sampleUser, repoList := [],
      languages := fun _ _ => .error .notFound,
      readme := fun _ _ => .error .notFound }
    none "alice" 0 1 (.error .noPublicRepos)
    (fun _ h => Option.noConfusion h) rfl

lemma filterMap_find_names (repos : List Repo) (names : List String) :
    (names.filterMap (fun n => repos.find? (fun r => r.name == n))).map Repo.name
      = names.filter (fun n => decide (n ∈ repos.map Repo.name)) := by
  induction names with
  | nil => rfl
  | cons n ns ih =>
    rw [List.filterMap_cons, List.filter_cons]
    cases hf : repos.find? (fun r => r.name == n) with
    | none =>
      have hall := List.find?_eq_none.mp hf
      have hmem : ¬ n ∈ repos.map Repo.name := by
        intro hmem
        obtain ⟨r, hr, hrn⟩ := List.mem_map.mp hmem
        have hx : ¬ r.name = n := by simpa using hall r hr
        exact hx hrn
      rw [if_neg (by simpa using hmem)]
      exact ih
    | some r =>
      have hp := List.find?_some hf
      have hrn : r.name = n := by simpa using hp
      have hmem : n ∈ repos.map Repo.name := by
        rw [← hrn]
        exact List.mem_map_of_mem Repo.name (List.mem_of_find?_eq_some hf)
      rw [if_pos (by simpa using hmem), List.map_cons, hrn, ih]

/-- The concrete two-repository account of the ordering example. -/
def exRepoA : Repo := sampleRepo "a" 5

/-- The second repository of the ordering example (fewer stars). -/
def exRepoB : Repo := sampleRepo "b" 1

/-- Snapshot holding the two example repositories in fetch order. -/
def exData : UserData :=
  { username := "alice", repos := [exRepoA, exRepoB], userInfo := sampleUser,
    lastFetch := 0 }

/-- Settings choosing `featuredRepos = ["b", "a"]` under star sorting. -/
def exSettings : Settings :=
  { primaryColor := "#6366f1", accentColor := "#22d3ee", bio := "",
    linkedin := "", twitter := "", email := "", filterStarred := false,
    filterNoForks := true, sortBy := "stars", featuredRepos := ["b", "a"] }

/-- C6: with empty `featuredRepos` the featured set is the first 6 of the
filtered/sorted list; with non-empty `featuredRepos` it has at most 6
entries whose names are exactly the user-chosen names in the user-chosen
order, dropping names absent from the filtered/sorted list; and on the
concrete example the star order is `[a, b]` while `featuredRepos =
["b", "a"]` yields `[b, a]`. -/
theorem getFeaturedRepos_spec :
    (∀ ud s, s.featuredRepos = [] →
       getFeaturedRepos ud s = (getFilteredRepos ud s).take 6) ∧
      (∀ ud s, s.featuredRepos ≠ [] →
        (getFeaturedRepos ud s).length ≤ 6 ∧
          (getFeaturedRepos ud s).map Repo.name =
            (s.featuredRepos.filter
              (fun n => decide (n ∈ (getFilteredRepos ud s).map Repo.name))).take 6) ∧
      (getFilteredRepos (some exData) exSettings = [exRepoA, exRepoB] ∧
        getFeaturedRepos (some exData) exSettings = [exRepoB, exRepoA]) := by
  refine ⟨?_, ?_, by decide, by decide⟩
  · intro ud s hs
    rw [getFeaturedRepos, if_neg (by simp [hs])]
  · intro ud s hs
    rw [getFeaturedRepos, if_pos hs]
    constructor
    · exact List.length_take_le 6 _
    · rw [List.map_take, filterMap_find_names]

/-- C6 witness: the featured-set characterization applied to the concrete
two-repository account with `featuredRepos = ["b", "a"]`. -/
theorem getFeaturedRepos_spec_witness :
    (getFeaturedRepos (some exData) exSettings).length ≤ 6 ∧
      (getFeaturedRepos (some exData) exSettings).map Repo.name =
        (exSettings.featuredRepos.filter
          (fun n =>
            decide (n ∈ (getFilteredRepos (some exData) exSettings).map Repo.name))).take 6 :=
  getFeaturedRepos_spec.2.1 (some exData) exSettings (by decide)

lemma mem_insertStable (le : α → α → Bool) (x a : α) (l : List α) :
    a ∈ insertStable le x l ↔ a = x ∨ a ∈ l := by
  induction l with
  | nil => simp [insertStable]
  | cons y ys ih =>
    rw [insertStable]
    split_ifs with h
    · simp [List.mem_cons]
    · simp only [List.mem_cons, ih]
      tauto

lemma mem_sortStable_aux (le : α → α → Bool) :
    ∀ (l acc : List α) (a : α),
      a ∈ l.foldl (fun acc x => insertStable le x acc) acc ↔ a ∈ acc ∨ a ∈ l := by
  intro l
  induction l with
  | nil => simp
  | cons x xs ih =>
    intro acc a
    rw [List.foldl_cons, ih, mem_insertStable]
    simp only [List.mem_cons]
    tauto

lemma mem_sortStable (le : α → α → Bool) (l : List α) (a : α) :
    a ∈ sortStable le l ↔ a ∈ l := by
  rw [sortStable, mem_sortStable_aux]
  simp

/-- C9: the `filterStarred` flag is accepted but has no effect on filtering,
featured selection or rendering (the outputs for the two flag values are
identical for every snapshot, settings, template and clock), while
`filterNoForks` set does exclude forked repositories from the filtered
list. -/
theorem filterStarred_inert :
    (∀ ud (s : Settings) (b₁ b₂ : Bool),
       getFilteredRepos ud { s with filterStarred := b₁ }
           = getFilteredRepos ud { s with filterStarred := b₂ } ∧
         getFeaturedRepos ud { s with filterStarred := b₁ }
           = getFeaturedRepos ud { s with filterStarred := b₂ }) ∧
      (∀ ud (s : Settings) (b₁ b₂ : Bool) (tmpl : String) (now : Int),
        render ud { s with filterStarred := b₁ } tmpl now
          = render ud { s with filterStarred := b₂ } tmpl now) ∧
      (∀ ud (s : Settings) r, s.filterNoForks = true →
        r ∈ getFilteredRepos ud s → r.fork = false) := by
  refine ⟨?_, ?_, ?_⟩
  · intro ud s b₁ b₂
    cases s
    exact ⟨rfl, rfl⟩
  · intro ud s b₁ b₂ tmpl now
    cases s
    rfl
  · intro ud s r hnf hr
    cases ud with
    | none => simp [getFilteredRepos] at hr
    | some d =>
      simp only [getFilteredRepos, hnf, if_true] at hr
      have hmem : r ∈ d.repos.filter (fun r => !r.fork) := by
        split_ifs at hr
        · exact (mem_sortStable _ _ _).mp hr
        · exact (mem_sortStable _ _ _).mp hr
        · exact (mem_sortStable _ _ _).mp hr
        · exact hr
      have hf := (List.mem_filter.mp hmem).2
      simpa using hf

/-- C9 witness: on the concrete account, a repository of the filtered list
under `filterNoForks = true` is indeed not a fork. -/
theorem filterStarred_inert_witness : exRepoA.fork = false :=
  filterStarred_inert.2.2 (some exData) exSettings exRepoA (by decide) (by decide)

/-- C10: the module getters and `render` leave the engine state — in
particular the stored snapshot and its `repos` array — unchanged
(filtering/sorting operate on the copy `[...userData.repos]`), so a later
`getFilteredRepos` under different settings starts from the same underlying
data as a fresh call. -/
theorem engine_state_frame (st : EngineState) (now : Int) (s2 : Settings) :
    (getFilteredReposS st).2 = st ∧
      (getFeaturedReposS st).2 = st ∧
      (renderS st now).2 = st ∧
      (renderS st now).2.userData = st.userData ∧
      getFilteredReposS { (renderS st now).2 with settings := s2 }
        = getFilteredReposS { st with settings := s2 } :=
  ⟨rfl, rfl, rfl, rfl, rfl⟩

lemma idxOfSubAux_spec (needle : List Char) :
    ∀ (hay : List Char) (i j : Nat), idxOfSubAux needle hay i = some j →
      i ≤ j ∧ isPrefixL needle (hay.drop (j - i)) = true ∧
        ∀ k, k < j - i → isPrefixL needle (hay.drop k) = false := by
  intro hay
  induction hay with
  | nil =>
    intro i j h
    rw [idxOfSubAux] at h
    split_ifs at h with hn
    obtain rfl := Option.some.inj h
    subst hn
    refine ⟨le_refl i, by simp [isPrefixL], ?_⟩
    intro k hk
    omega
  | cons c cs ih =>
    intro i j h
    rw [idxOfSubAux] at h
    split_ifs at h with hp
    · obtain rfl := Option.some.inj h
      refine ⟨le_refl i, by simpa using hp, ?_⟩
      intro k hk
      omega
    · obtain ⟨hle, hpre, hmin⟩ := ih (i + 1) j h
      refine ⟨by omega, ?_, ?_⟩
      · have hji : j - i = (j - (i + 1)) + 1 := by omega
        rw [hji, List.drop_succ_cons]
        exact hpre
      · intro k hk
        cases k with
        | zero =>
          simpa using (Bool.not_eq_true _).mp hp
        | succ k2 =>
          rw [List.drop_succ_cons]
          exact hmin k2 (by omega)

/-- C7 (amended): when the document has no closing head marker,
`injectIntoHtml` returns it unchanged — both injections are skipped, so the
structured data is not inserted even when a closing body marker is present
(refuting the claimed independence); when the head marker is present, the
metadata is spliced immediately before its first occurrence
(the returned index is an occurrence and no earlier index is), and the
structured data is spliced immediately before the first closing body marker
of the updated document when one exists, the body marker alone being
non-fatal and skipping only the structured-data injection. -/
theorem injectIntoHtml_spec :
    (∀ html m sd, idxOfSub html "</head>" = none → injectIntoHtml html m sd = html) ∧
      (∀ (hay needle : String) (j : Nat), idxOfSub hay needle = some j →
        isPrefixL needle.data (hay.data.drop j) = true ∧
          ∀ k, k < j → isPrefixL needle.data (hay.data.drop k) = false) ∧
      (∀ html m sd i, idxOfSub html "</head>" = some i →
        (idxOfSub (String.mk (html.data.take i) ++ m ++ "\n"
              ++ String.mk (html.data.drop i)) "</body>" = none →
          injectIntoHtml html m sd
            = String.mk (html.data.take i) ++ m ++ "\n"
              ++ String.mk (html.data.drop i)) ∧
        (∀ j, idxOfSub (String.mk (html.data.take i) ++ m ++ "\n"
              ++ String.mk (html.data.drop i)) "</body>" = some j →
          injectIntoHtml html m sd
            = String.mk ((String.mk (html.data.take i) ++ m ++ "\n"
                  ++ String.mk (html.data.drop i)).data.take j) ++ sd ++ "\n"
                ++ String.mk ((String.mk (html.data.take i) ++ m ++ "\n"
                  ++ String.mk (html.data.drop i)).data.drop j))) := by
  refine ⟨?_, ?_, ?_⟩
  · intro html m sd h
    rw [injectIntoHtml, h]
  · intro hay needle j h
    obtain ⟨_, hpre, hmin⟩ := idxOfSubAux_spec needle.data hay.data 0 j h
    refine ⟨by simpa using hpre, ?_⟩
    intro k hk
    have := hmin k (by omega)
    simpa using this
  · intro html m sd i hi
    constructor
    · intro hb
      rw [injectIntoHtml, hi]
      show (match idxOfSub (String.mk (html.data.take i) ++ m ++ "\n"
            ++ String.mk (html.data.drop i)) "</body>" with
        | none => String.mk (html.data.take i) ++ m ++ "\n"
            ++ String.mk (html.data.drop i)
        | some b =>
          String.mk ((String.mk (html.data.take i) ++ m ++ "\n"
              ++ String.mk (html.data.drop i)).data.take b) ++ sd ++ "\n"
            ++ String.mk ((String.mk (html.data.take i) ++ m ++ "\n"
              ++ String.mk (html.data.drop i)).data.drop b)) = _
      rw [hb]
    · intro j hb
      rw [injectIntoHtml, hi]
      show (match idxOfSub (String.mk (html.data.take i) ++ m ++ "\n"
            ++ String.mk (html.data.drop i)) "</body>" with
        | none => String.mk (html.data.take i) ++ m ++ "\n"
            ++ String.mk (html.data.drop i)
        | some b =>
          String.mk ((String.mk (html.data.take i) ++ m ++ "\n"
              ++ String.mk (html.data.drop i)).data.take b) ++ sd ++ "\n"
            ++ String.mk ((String.mk (html.data.take i) ++ m ++ "\n"
              ++ String.mk (html.data.drop i)).data.drop b)) = _
      rw [hb]

/-- C7 counterexample: a document with a closing body marker but no closing
head marker is returned unmodified — the structured data is not injected,
refuting the claimed independence of the two injections. -/
theorem injectIntoHtml_counterexample :
    idxOfSub "<body>x</body>" "</head>" = none ∧
      idxOfSub "<body>x</body>" "</body>" = some 7 ∧
      injectIntoHtml "<body>x</body>" "<meta x>" "<sd>y</sd>" = "<body>x</body>" := by
  refine ⟨by decide, by decide, ?_⟩
  rw [injectIntoHtml]
  have h : idxOfSub "<body>x</body>" "</head>" = none := by decide
  rw [h]

/-- C7 witness: the no-head-marker branch applied to a concrete document. -/
theorem injectIntoHtml_spec_witness :
    injectIntoHtml "<p>hi</p>" "<meta x>" "<sd>y</sd>" = "<p>hi</p>" :=
  injectIntoHtml_spec.1 "<p>hi</p>" "<meta x>" "<sd>y</sd>" (by decide)

lemma splitLinesAux_no_newline :
    ∀ (l acc : List Char), '\n' ∉ l →
      splitLinesAux l acc = [String.mk (acc.reverse ++ l)] := by
  intro l
  induction l with
  | nil =>
    intro acc _
    simp [splitLinesAux]
  | cons c cs ih =>
    intro acc h
    rw [splitLinesAux,
      if_neg (by intro hc; exact h (hc ▸ List.mem_cons_self c cs)),
      ih (c :: acc) (fun hm => h (List.mem_cons_of_mem c hm))]
    simp

/-- Text on which the excerpt extractor is expected to act as the identity:
a single non-blank line that is its own trim, is not skipped as a heading
or badge, has no markdown syntax to strip, and fits the 250-character
budget. -/
def cleanText (s : String) : Bool :=
  decide (s ≠ "") && decide (trimStr s = s) && decide ('\n' ∉ s.data)
    && !startsWithS "#" s && !startsWithS "![" s && !startsWithS "[!" s
    && !startsWithS "[![" s && decide (stripMarkdown s = s)
    && decide (lengthN s ≤ 250)

/-- C5: the extractor is the identity on clean text — hence idempotent on
its own output whenever that output is a clean paragraph of at most 250
characters — and on the specified markdown input it produces exactly the
specified excerpt, following the scan-then-strip-then-truncate order. -/
theorem extractFirstParagraph_spec :
    (∀ s, cleanText s = true → extractFirstParagraph s = s) ∧
      extractFirstParagraph
          "# Title\n\n![badge](x)\n\nThis is **bold** and a [link](url)."
        = "This is bold and a link." := by
  constructor
  · intro s hc
    simp only [cleanText, Bool.and_eq_true, Bool.not_eq_true',
      decide_eq_true_eq] at hc
    obtain ⟨⟨⟨⟨⟨⟨⟨⟨hne, htrim⟩, hnl⟩, hh⟩, hb1⟩, hb2⟩, hb3⟩, hstrip⟩, hlen⟩ := hc
    have h300 : ¬ (300 < lengthN s) := by
      rw [lengthN] at hlen ⊢
      omega
    have hsplit : splitLinesAux s.data [] = [s] := by
      rw [splitLinesAux_no_newline s.data [] hnl]
      simp
    have hscan : scanLines [s] false "" = s := by
      simp [scanLines, htrim, hne, hh, hb1, hb2, hb3, h300]
    have hslice : sliceN s 250 = s := by
      rw [sliceN, List.take_of_length_le hlen]
    show sliceN (stripMarkdown (scanLines (splitLinesAux s.data []) false "")) 250
        ++ (if 250 < lengthN (stripMarkdown (scanLines (splitLinesAux s.data []) false ""))
            then "..." else "") = s
    rw [hsplit, hscan, hstrip, hslice, if_neg (by rw [lengthN] at hlen ⊢; omega)]
    show String.mk (s.data ++ "".data) = s
    simp
  · decide

/-- C5 witness: a concrete clean paragraph is a fixed point of the
extractor. -/
theorem extractFirstParagraph_spec_witness :
    cleanText "Nice clean text." = true ∧
      extractFirstParagraph "Nice clean text." = "Nice clean text." :=
  ⟨by decide, extractFirstParagraph_spec.1 "Nice clean text." (by decide)⟩

lemma escChar_no_specials (c0 c : Char) (h : c ∈ (escChar c0).data) :
    c ≠ '<' ∧ c ≠ '>' ∧ c ≠ '"' ∧ c ≠ apos := by
  rw [escChar] at h
  split_ifs at h with h1 h2 h3 h4 h5
  · fin_cases h <;> refine ⟨by decide, by decide, by decide, by decide⟩
  · fin_cases h <;> refine ⟨by decide, by decide, by decide, by decide⟩
  · fin_cases h <;> refine ⟨by decide, by decide, by decide, by decide⟩
  · fin_cases h <;> refine ⟨by decide, by decide, by decide, by decide⟩
  · fin_cases h <;> refine ⟨by decide, by decide, by decide, by decide⟩
  · have hc : c = c0 := by simpa using h
    subst hc
    exact ⟨h2, h3, h4, h5⟩

lemma escList_no_specials :
    ∀ (l : List Char) (c : Char), c ∈ escList l →
      c ≠ '<' ∧ c ≠ '>' ∧ c ≠ '"' ∧ c ≠ apos := by
  intro l
  induction l with
  | nil =>
    intro c h
    exact absurd h (List.not_mem_nil c)
  | cons c0 cs ih =>
    intro c h
    rw [escList] at h
    rcases List.mem_append.mp h with h' | h'
    · exact escChar_no_specials c0 c h'
    · exact ih c h'

lemma escChar_data_ne_nil (c : Char) : (escChar c).data ≠ [] := by
  rw [escChar]
  split_ifs <;> simp

lemma escList_eq_nil (l : List Char) : escList l = [] ↔ l = [] := by
  cases l with
  | nil => simp [escList]
  | cons c cs =>
    simp only [escList, List.append_eq_nil]
    simp [escChar_data_ne_nil c]

lemma escapeHtml_empty_iff (s : String) : escapeHtml s = "" ↔ s = "" := by
  rw [escapeHtml]
  constructor
  · intro h
    have hd : escList s.data = [] := by
      have := congrArg String.data h
      simpa using this
    exact String.ext ((escList_eq_nil s.data).mp hd)
  · intro h
    subst h
    rfl

lemma escapeHtml_eq_empty_iff (X₁ X₂ : String)
    (h : escapeHtml X₁ = escapeHtml X₂) : X₁ = "" ↔ X₂ = "" := by
  constructor
  · intro h1
    subst h1
    exact (escapeHtml_empty_iff X₂).mp (by rw [← h]; rfl)
  · intro h2
    subst h2
    exact (escapeHtml_empty_iff X₁).mp (by rw [h]; rfl)

lemma jsOr_escape (X₁ X₂ t : String) (h : escapeHtml X₁ = escapeHtml X₂) :
    escapeHtml (jsOr X₁ t) = escapeHtml (jsOr X₂ t) := by
  have hiff := escapeHtml_eq_empty_iff X₁ X₂ h
  rw [jsOr, jsOr]
  by_cases h1 : X₁ = ""
  · rw [if_pos h1, if_pos (hiff.mp h1)]
  · rw [if_neg h1, if_neg (fun hh => h1 (hiff.mpr hh))]
    exact h

lemma escapedIfBlock_congr (p q X₁ X₂ : String)
    (h : escapeHtml X₁ = escapeHtml X₂) :
    (if X₁ ≠ "" then p ++ escapeHtml X₁ ++ q else "")
      = (if X₂ ≠ "" then p ++ escapeHtml X₂ ++ q else "") := by
  have hiff := escapeHtml_eq_empty_iff X₁ X₂ h
  by_cases h1 : X₁ = ""
  · rw [if_neg (by simp [h1]), if_neg (by simp [hiff.mp h1])]
  · rw [if_pos h1, if_pos (fun hh => h1 (hiff.mpr hh)), h]


/-- Number of occurrences of a character among the characters of a string
(used to measure the raw `<`, `>`, `"`, apostrophe content of produced
markup). -/
def countChar (c : Char) (s : String) : Nat :=
  (s.data.filter (fun x => x = c)).length

lemma countChar_append (c : Char) (a b : String) :
    countChar c (a ++ b) = countChar c a + countChar c b := by
  rw [countChar, countChar, countChar, String.data_append, List.filter_append,
    List.length_append]

lemma countChar_escapeHtml (c : Char)
    (hc : c = '<' ∨ c = '>' ∨ c = '"' ∨ c = apos) (s : String) :
    countChar c (escapeHtml s) = 0 := by
  rw [countChar]
  have hnil : (escapeHtml s).data.filter (fun x => x = c) = [] := by
    rw [List.filter_eq_nil_iff]
    intro a ha
    obtain ⟨h1, h2, h3, h4⟩ :=
      escList_no_specials s.data a (by simpa [escapeHtml] using ha)
    rcases hc with rfl | rfl | rfl | rfl <;> simp [h1, h2, h3, h4]
  rw [hnil]
  rfl

lemma countChar_description (c : Char)
    (hc : c = '<' ∨ c = '>' ∨ c = '"' ∨ c = apos) (X : String) :
    countChar c (jsOr (escapeHtml X) "No description") = 0 := by
  rw [jsOr]
  split_ifs
  · rcases hc with rfl | rfl | rfl | rfl <;> decide
  · exact countChar_escapeHtml c hc X

lemma countChar_gradient (c : Char)
    (hc : c = '<' ∨ c = '>' ∨ c = '"' ∨ c = apos) (i : Nat) :
    countChar c (gradients.getD i "") = 0 := by
  have hlen : gradients.length = 6 := rfl
  rcases hc with rfl | rfl | rfl | rfl <;>
    match i with
    | 0 | 1 | 2 | 3 | 4 | 5 => decide
    | n + 6 =>
      rw [List.getD_eq_default gradients "" (by rw [hlen]; omega)]
      decide

lemma jsOr_eq_empty_iff (a t : String) : jsOr a t = "" ↔ (a = "" ∧ t = "") := by
  rw [jsOr]
  split_ifs with h
  · simp [h]
  · simp [h]

lemma countChar_escapedBlock (c : Char)
    (hc : c = '<' ∨ c = '>' ∨ c = '"' ∨ c = apos) (p q X₁ X₂ : String)
    (h : X₁ = "" ↔ X₂ = "") :
    countChar c (if X₁ ≠ "" then p ++ escapeHtml X₁ ++ q else "")
      = countChar c (if X₂ ≠ "" then p ++ escapeHtml X₂ ++ q else "") := by
  by_cases h1 : X₁ = ""
  · rw [if_neg (by simp [h1]), if_neg (by simp [h.mp h1])]
  · rw [if_pos h1, if_pos (fun hh => h1 (h.mpr hh)), countChar_append,
      countChar_append, countChar_append, countChar_append,
      countChar_escapeHtml c hc X₁, countChar_escapeHtml c hc X₂]

/-- C1 (amended): escaping of the listed fields, stated as an interpolation
safety property.  (1) Escaped output never contains a raw `<`, `>`, `"` or
apostrophe.  (2) For every template — minimal, dark and creative alike —
the number of raw `<`, `>`, `"` and apostrophe characters in a project card
is independent of the repository name and description: every such character
comes from fixed markup, never from those fields, because they are
interpolated only through `escapeHtml` (a renderer that skipped escaping
would violate this for a name containing `<`).  (3) Likewise the rendered
document’s raw special-character count is independent of the user display
name, bio and location (for bio and location up to their emptiness, which
only toggles the fixed `<p>` markup of the optional blocks).  Repository
topics are excluded: the counterexample shows they reach the creative card
verbatim. -/
theorem escaping_spec :
    (∀ (s : String) (c : Char), c ∈ (escapeHtml s).data →
       c ≠ '<' ∧ c ≠ '>' ∧ c ≠ '"' ∧ c ≠ apos) ∧
      (∀ (r : Repo) (n₁ n₂ : String) (d₁ d₂ : Option String) (tmpl : String)
         (now : Int) (c : Char), c = '<' ∨ c = '>' ∨ c = '"' ∨ c = apos →
        countChar c
            (generateProjectCard { r with name := n₁, description := d₁ } tmpl now)
          = countChar c
            (generateProjectCard { r with name := n₂, description := d₂ } tmpl now)) ∧
      (∀ (ud : UserData) (s : Settings) (tmpl : String) (now : Int)
         (n₁ n₂ l₁ l₂ b₁ b₂ : String) (c : Char),
        c = '<' ∨ c = '>' ∨ c = '"' ∨ c = apos →
        (l₁ = "" ↔ l₂ = "") → (b₁ = "" ↔ b₂ = "") →
        countChar c
            (render (some { ud with userInfo :=
                { ud.userInfo with name := some n₁, location := some l₁ } })
              { s with bio := b₁ } tmpl now)
          = countChar c
            (render (some { ud with userInfo :=
                { ud.userInfo with name := some n₂, location := some l₂ } })
              { s with bio := b₂ } tmpl now)) := by
  refine ⟨?_, ?_, ?_⟩
  · intro s c h
    exact escList_no_specials s.data c (by simpa [escapeHtml] using h)
  · intro r n₁ n₂ d₁ d₂ tmpl now c hc
    obtain ⟨nm, ds, hu, hp, sc, fc, fk, tp, ua, ld, re⟩ := r
    have hlangs : getTopLanguages
        { name := n₁, description := d₁, html_url := hu, homepage := hp,
          stargazers_count := sc, forks_count := fc, fork := fk, topics := tp,
          updated_at := ua, languageData := ld, readmeExcerpt := re }
        = getTopLanguages
        { name := n₂, description := d₂, html_url := hu, homepage := hp,
          stargazers_count := sc, forks_count := fc, fork := fk, topics := tp,
          updated_at := ua, languageData := ld, readmeExcerpt := re } := rfl
    by_cases h1 : tmpl = "minimal"
    · subst h1
      simp only [generateProjectCard, reduceIte]
      rw [hlangs]
      simp only [countChar_append]
      rw [countChar_escapeHtml c hc n₁, countChar_escapeHtml c hc n₂,
        countChar_description c hc (orEmpty d₁),
        countChar_description c hc (orEmpty d₂)]
    · by_cases h2 : tmpl = "dark"
      · subst h2
        simp only [generateProjectCard, String.reduceEq, reduceIte]
        rw [hlangs]
        simp only [countChar_append]
        rw [countChar_escapeHtml c hc n₁, countChar_escapeHtml c hc n₂,
          countChar_description c hc (orEmpty d₁),
          countChar_description c hc (orEmpty d₂)]
      · by_cases h3 : tmpl = "creative"
        · subst h3
          simp only [generateProjectCard, String.reduceEq, reduceIte]
          rw [hlangs]
          simp only [countChar_append]
          rw [countChar_escapeHtml c hc n₁, countChar_escapeHtml c hc n₂,
            countChar_description c hc (orEmpty d₁),
            countChar_description c hc (orEmpty d₂),
            countChar_gradient c hc ((hashCode n₁).natAbs % gradients.length),
            countChar_gradient c hc ((hashCode n₂).natAbs % gradients.length)]
        · simp only [generateProjectCard]
          rw [if_neg h1, if_neg h2, if_neg h3, if_neg h1, if_neg h2, if_neg h3]
  · intro ud s tmpl now n₁ n₂ l₁ l₂ b₁ b₂ c hc hliff hbiff
    obtain ⟨un, repos, u, lf⟩ := ud
    obtain ⟨login, uname, av, hurl, ubio, uloc⟩ := u
    obtain ⟨pc, ac, sbio, li, tw, em, fs, fnf, sb, fr⟩ := s
    have hfeat : getFeaturedRepos
        (some { username := un, repos := repos,
                userInfo := { login := login, name := some n₁, avatar_url := av,
                              html_url := hurl, bio := ubio, location := some l₁ },
                lastFetch := lf })
        { primaryColor := pc, accentColor := ac, bio := b₁, linkedin := li,
          twitter := tw, email := em, filterStarred := fs, filterNoForks := fnf,
          sortBy := sb, featuredRepos := fr }
        = getFeaturedRepos
        (some { username := un, repos := repos,
                userInfo := { login := login, name := some n₂, avatar_url := av,
                              html_url := hurl, bio := ubio, location := some l₂ },
                lastFetch := lf })
        { primaryColor := pc, accentColor := ac, bio := b₂, linkedin := li,
          twitter := tw, email := em, filterStarred := fs, filterNoForks := fnf,
          sortBy := sb, featuredRepos := fr } := rfl
    have hfilt : getFilteredRepos
        (some { username := un, repos := repos,
                userInfo := { login := login, name := some n₁, avatar_url := av,
                              html_url := hurl, bio := ubio, location := some l₁ },
                lastFetch := lf })
        { primaryColor := pc, accentColor := ac, bio := b₁, linkedin := li,
          twitter := tw, email := em, filterStarred := fs, filterNoForks := fnf,
          sortBy := sb, featuredRepos := fr }
        = getFilteredRepos
        (some { username := un, repos := repos,
                userInfo := { login := login, name := some n₂, avatar_url := av,
                              html_url := hurl, bio := ubio, location := some l₂ },
                lastFetch := lf })
        { primaryColor := pc, accentColor := ac, bio := b₂, linkedin := li,
          twitter := tw, email := em, filterStarred := fs, filterNoForks := fnf,
          sortBy := sb, featuredRepos := fr } := rfl
    have hsocial : generateSocialLinks
        { primaryColor := pc, accentColor := ac, bio := b₁, linkedin := li,
          twitter := tw, email := em, filterStarred := fs, filterNoForks := fnf,
          sortBy := sb, featuredRepos := fr }
        (some { username := un, repos := repos,
                userInfo := { login := login, name := some n₁, avatar_url := av,
                              html_url := hurl, bio := ubio, location := some l₁ },
                lastFetch := lf })
        = generateSocialLinks
        { primaryColor := pc, accentColor := ac, bio := b₂, linkedin := li,
          twitter := tw, email := em, filterStarred := fs, filterNoForks := fnf,
          sortBy := sb, featuredRepos := fr }
        (some { username := un, repos := repos,
                userInfo := { login := login, name := some n₂, avatar_url := av,
                              html_url := hurl, bio := ubio, location := some l₂ },
                lastFetch := lf }) := rfl
    have hresolved : jsOr b₁ (orEmpty ubio) = "" ↔ jsOr b₂ (orEmpty ubio) = "" := by
      rw [jsOr_eq_empty_iff, jsOr_eq_empty_iff, hbiff]
    have hbioblock := countChar_escapedBlock c hc "<p class=\"bio\">" "</p>"
      (jsOr b₁ (orEmpty ubio)) (jsOr b₂ (orEmpty ubio)) hresolved
    have hlocblock := countChar_escapedBlock c hc "<p class=\"location\">📍 " "</p>"
      (orEmpty (some l₁)) (orEmpty (some l₂))
      (show orEmpty (some l₁) = "" ↔ orEmpty (some l₂) = "" from hliff)
    simp only [render]
    rw [hfeat, hfilt, hsocial]
    simp only [countChar_append]
    rw [countChar_escapeHtml c hc (jsOr (orEmpty (some n₁)) login),
      countChar_escapeHtml c hc (jsOr (orEmpty (some n₂)) login),
      hbioblock, hlocblock]

/-- A repository whose only topic is an HTML injection payload. -/
def ceRepo : Repo :=
  { name := "x", description := none, html_url := "https://g/x", homepage := none,
    stargazers_count := 0, forks_count := 0, fork := false,
    topics := ["<script>"], updated_at := 0, languageData := none,
    readmeExcerpt := none }

set_option maxRecDepth 8000 in
/-- C1 counterexample: in the creative template a topic string is
interpolated verbatim — the raw `<script>` text occurs in the card output
while its escaped form does not, so topics do not appear HTML-escaped. -/
theorem escaping_counterexample :
    idxOfSub (generateProjectCard ceRepo "creative" 0) "<script>" ≠ none ∧
      idxOfSub (generateProjectCard ceRepo "creative" 0) "&lt;script&gt;" = none := by
  constructor
  · decide
  · decide

/-- C1 witness: the safety property applied with concretely different field
contents — an injection-attempt name and description against benign ones in
a minimal card, and injection-attempt bio/location/display-name against
benign ones in a dark render — yields equal raw-special-character counts. -/
theorem escaping_spec_witness :
    countChar '<'
        (generateProjectCard
          { ceRepo with name := "<script>", description := some "<i>hi</i>" }
          "minimal" 0)
      = countChar '<'
        (generateProjectCard { ceRepo with name := "x", description := none }
          "minimal" 0) ∧
      countChar '<'
          (render (some { exData with userInfo :=
              { exData.userInfo with name := some "<script>", location := some "<b>" } })
            { exSettings with bio := "<img src=x>" } "dark" 0)
        = countChar '<'
          (render (some { exData with userInfo :=
              { exData.userInfo with name := some "x", location := some "y" } })
            { exSettings with bio := "safe" } "dark" 0) :=
  ⟨escaping_spec.2.1 ceRepo "<script>" "x" (some "<i>hi</i>") none "minimal" 0 '<'
      (Or.inl rfl),
    escaping_spec.2.2 exData exSettings "dark" 0 "<script>" "x" "<b>" "y"
      "<img src=x>" "safe" '<' (Or.inl rfl) (by decide) (by decide)⟩
